import Mathlib

/-!
Verification of the invoice line-item extraction pipeline
(`pdf_to_excel_converter.py` and `desktop_app/pdf_converter.py`).

The Python source is shallowly embedded: dictionaries become association
lists (`List (String × String)`), optional cells become `Option String`,
regular expressions become explicit character-list matchers with the same
backtracking order as the CPython `re` engine, and Python string
truthiness becomes comparison with the empty string.
-/

namespace InvoiceConv

/-! ## Python string primitives, embedded over `List Char` -/

/-- ASCII whitespace recognised by Python's `\s`, `str.strip` and `str.split`. -/
def isWsChar (c : Char) : Bool :=
  c == ' ' || c == '\t' || c == '\n' || c == '\r' || c == '\x0b' || c == '\x0c'

/-- Python `str.strip()`. -/
def pyStrip (s : String) : String :=
  ⟨((s.toList.dropWhile isWsChar).reverse.dropWhile isWsChar).reverse⟩

/-- ASCII lower-casing of one character (Python `str.lower` on ASCII input). -/
def asciiLowerChar (c : Char) : Char :=
  if 65 ≤ c.toNat && c.toNat ≤ 90 then Char.ofNat (c.toNat + 32) else c

/-- ASCII upper-casing of one character (Python `str.upper` on ASCII input). -/
def asciiUpperChar (c : Char) : Char :=
  if 97 ≤ c.toNat && c.toNat ≤ 122 then Char.ofNat (c.toNat - 32) else c

/-- Python `str.lower()`. -/
def pyLower (s : String) : String := ⟨s.toList.map asciiLowerChar⟩

/-- Python `str.upper()`. -/
def pyUpper (s : String) : String := ⟨s.toList.map asciiUpperChar⟩

/-- Whether `needle` is a prefix of `hay` (boolean, over char lists). -/
def listStartsWith : List Char → List Char → Bool
  | [], _ => true
  | _ :: _, [] => false
  | a :: as, b :: bs => a == b && listStartsWith as bs

/-- Whether `needle` occurs as a contiguous substring of `hay`. -/
def listContainsSub (needle : List Char) : List Char → Bool
  | [] => listStartsWith needle []
  | c :: t => listStartsWith needle (c :: t) || listContainsSub needle t

/-- Python `needle in hay` on strings. -/
def strContains (hay needle : String) : Bool :=
  listContainsSub needle.toList hay.toList

/-- Python `str.split()` with no argument: split on whitespace runs, dropping empties. -/
def splitWsAux : List Char → List Char → List String
  | [], acc => if acc.isEmpty then [] else [⟨acc.reverse⟩]
  | c :: t, acc =>
    if isWsChar c then
      if acc.isEmpty then splitWsAux t [] else ⟨acc.reverse⟩ :: splitWsAux t []
    else splitWsAux t (c :: acc)

/-- Python `str.split()` (whitespace split). -/
def pySplitWs (s : String) : List String := splitWsAux s.toList []

/-- Python `text.split(sep)` for a single character separator, keeping empties. -/
def splitCharKeep (sep : Char) : List Char → List Char → List String
  | [], acc => [⟨acc.reverse⟩]
  | c :: t, acc =>
    if c == sep then ⟨acc.reverse⟩ :: splitCharKeep sep t []
    else splitCharKeep sep t (c :: acc)

/-- Python `text.split('\n')`. -/
def pySplitNl (s : String) : List String := splitCharKeep '\n' s.toList []

/-- Python `' '.join(parts)`. -/
def joinSpace : List String → String
  | [] => ""
  | [v] => v
  | v :: rest => v ++ " " ++ joinSpace rest

/-- Python `s.replace('.', '')`. -/
def removeDots (s : String) : String := ⟨s.toList.filter (fun c => c ≠ '.')⟩

/-- Python `str.isdigit()` on ASCII strings: non-empty and all digits. -/
def pyIsDigitStr (s : String) : Bool :=
  !s.toList.isEmpty && s.toList.all Char.isDigit

/-- Empty-string-to-`none`: Python's "add the key only if the value is truthy". -/
def strOpt (s : String) : Option String := if s = "" then none else some s

/-! ## The small regular expressions of the source, as explicit matchers

Each matcher is written against the character list of the whole token, with
the same acceptance as the corresponding anchored CPython pattern.
-/

/-- Drop a leading character satisfying `p` if present (an optional regex atom). -/
def dropOptChar (p : Char → Bool) : List Char → List Char
  | [] => []
  | c :: t => if p c then t else c :: t

/-- Matches `^\d{1,3}%$` (a VAT token such as `20%`). -/
def matchVatTok (s : String) : Bool :=
  let cs := s.toList
  let ds := cs.takeWhile Char.isDigit
  cs.dropWhile Char.isDigit == ['%'] && 1 ≤ ds.length && ds.length ≤ 3

/-- Matches `^\d+\.\d{2}$` (a price token such as `10.00`). -/
def matchPriceTok (s : String) : Bool :=
  let cs := s.toList
  let ds := cs.takeWhile Char.isDigit
  match cs.dropWhile Char.isDigit with
  | '.' :: a :: b :: [] => !ds.isEmpty && a.isDigit && b.isDigit
  | _ => false

/-- Matches `^\d+\.?\d*$` (a plain numeric token). -/
def matchNumTok (s : String) : Bool :=
  let cs := s.toList
  let d1 := cs.takeWhile Char.isDigit
  let r2 := dropOptChar (fun c => c == '.') (cs.dropWhile Char.isDigit)
  !d1.isEmpty && (r2.dropWhile Char.isDigit).isEmpty

/-- Currency symbols of the noise filter's bare-money pattern. -/
def isCurrencyChar (c : Char) : Bool := c == '£' || c == '$' || c == '€'

/-- Digit, dot or comma (the `[\d.,]` class). -/
def isMoneyChar (c : Char) : Bool := c.isDigit || c == '.' || c == ','

/-- Matches `^[£$€]?[\d.,]+[£$€]?%?$` (a bare currency/percentage/number value). -/
def matchCurrencyTok (s : String) : Bool :=
  let cs1 := dropOptChar isCurrencyChar s.toList
  let body := cs1.takeWhile isMoneyChar
  let rest := dropOptChar (fun c => c == '%') (dropOptChar isCurrencyChar (cs1.dropWhile isMoneyChar))
  !body.isEmpty && rest.isEmpty

/-! ## Data model

`CandidateRecord` embeds the Python `line_item` dictionary built per data
row: the three provenance entries (`page`, `table_number`, `row_number`,
each possibly absent, i.e. `None`) and the remaining key/value pairs in
insertion order.  `LineItem` embeds the dictionary returned by
`_normalize_line_item`: provenance copied through plus the canonical
fields, where a Python key that is only added when its value is truthy
becomes an `Option String`.
-/

structure CandidateRecord where
  page : Option Int
  tableNumber : Option Int
  rowNumber : Option Int
  fields : List (String × String)
  deriving Repr, DecidableEq

structure LineItem where
  page : Option Int
  tableNumber : Option Int
  rowNumber : Option Int
  description : String
  quantity : Option String
  unit_price : Option String
  amount : Option String
  vat : Option String
  deriving Repr, DecidableEq

/-- A raw table grid with its provenance, as in the `all_tables` entries
(`page`, `table_number`, `data`). -/
structure TableInfo where
  page : Int
  tableNumber : Int
  data : List (List (Option String))
  deriving Repr, DecidableEq

/-! ## Noise Classifier: `_is_total_row` -/

/-- The total/summary vocabulary of `_is_total_row`. -/
def totalIndicators : List String :=
  ["TOTAL", "SUBTOTAL", "SUB-TOTAL", "GRAND TOTAL",
   "VAT", "TAX", "NET", "GROSS", "BALANCE",
   "AMOUNT DUE", "INVOICE TOTAL", "FINAL TOTAL",
   "SHIPPING", "DELIVERY", "DISCOUNT",
   "TOTA", "OTAL"]

/-- The company/letterhead vocabulary of `_is_total_row`. -/
def companyIndicators : List String :=
  ["LIMITED", "LTD", "LLC", "CORP", "CORPORATION", "INC",
   "TECHNOLOGY", "SOLUTIONS", "SERVICES", "GROUP",
   "COMPANY", "ANEXIAN"]

/-- The `text_values` list of `_is_total_row`: every truthy non-provenance
value, stripped and upper-cased, in record order. -/
def textValues (rec : CandidateRecord) : List String :=
  rec.fields.filterMap fun kv =>
    if kv.2 = "" then none else some (pyUpper (pyStrip kv.2))

/-- The `combined_text` of `_is_total_row`: the text values joined by spaces. -/
def combinedText (rec : CandidateRecord) : String := joinSpace (textValues rec)

/-- The `meaningful_fields` of `_is_total_row`: text values longer than 2. -/
def meaningfulValues (rec : CandidateRecord) : List String :=
  (textValues rec).filter fun v => 2 < v.length

/-- `_is_total_row`: the four noise rules, checked in source order with
short-circuiting. -/
def isTotalRow (rec : CandidateRecord) : Bool :=
  if totalIndicators.any (fun ind => strContains (combinedText rec) ind) then true
  else if (meaningfulValues rec).length ≤ 1 then true
  else if 0 < (companyIndicators.filter fun ind =>
          strContains (combinedText rec) ind).length
        && (meaningfulValues rec).length ≤ 2 then true
  else if (meaningfulValues rec).all (fun v => matchCurrencyTok v || v.length ≤ 3)
        && (meaningfulValues rec).length ≤ 3 then true
  else false

/-! ## Field Extractor: `_normalize_line_item` -/

/-- Description selection: prefer a field whose key contains `description`,
else the longest value, among values longer than 5 after stripping. -/
def selectDescription (fields : List (String × String)) : String :=
  fields.foldl
    (fun desc kv =>
      if 5 < (pyStrip kv.2).length then
        if strContains kv.1 "description" || desc.length < kv.2.length then pyStrip kv.2
        else desc
      else desc)
    ""

/-- The trailing-token walk of `_normalize_line_item`, on the reversed token
list: pops VAT (`^\d{1,3}%$`), unit price / quantity (`^\d+\.\d{2}$`) and
quantity (`^\d+\.?\d*$`) tokens until the first non-matching token.
Returns the remaining reversed tokens and the captured
quantity, unit price and vat. -/
def tokenWalkRev : List String → String → String → String →
    List String × String × String × String
  | [], quantity, unitPrice, vat => ([], quantity, unitPrice, vat)
  | t :: rest, quantity, unitPrice, vat =>
    if matchVatTok t then tokenWalkRev rest quantity unitPrice t
    else if matchPriceTok t && unitPrice == "" then tokenWalkRev rest quantity t vat
    else if matchPriceTok t && quantity == "" then tokenWalkRev rest t unitPrice vat
    else if matchNumTok t && quantity == "" then tokenWalkRev rest t unitPrice vat
    else (t :: rest, quantity, unitPrice, vat)

/-- The quantity fallback scan: first field whose key contains `qty` or
`quantit` (or equals `y`) and whose value, dots removed, is all digits. -/
def findQuantity : List (String × String) → String
  | [] => ""
  | (k, v) :: rest =>
    if (strContains (pyLower k) "qty" || strContains (pyLower k) "quantit"
          || pyLower k == "y")
        && pyIsDigitStr (removeDots (pyStrip v)) then pyStrip v
    else findQuantity rest

/-- The cross-field scan for unit price, amount and vat, with the source's
`if`/`elif` chain semantics. -/
def scanFields : List (String × String) → String → String → String →
    String × String × String
  | [], unitPrice, amount, vat => (unitPrice, amount, vat)
  | (k, v) :: rest, unitPrice, amount, vat =>
    let vs := pyStrip v
    let kl := pyLower k
    if unitPrice == "" && (strContains kl "price" || strContains kl "unit") then
      scanFields rest (if matchNumTok vs then vs else unitPrice) amount vat
    else if amount == "" && (strContains kl "amount" || strContains kl "total") then
      scanFields rest unitPrice (if matchNumTok vs then vs else amount) vat
    else if vat == "" && (strContains kl "vat" || strContains kl "tax") then
      scanFields rest unitPrice amount vs
    else scanFields rest unitPrice amount vat

/-- Python dict key lookup over the field list. -/
def lookupField : List (String × String) → String → Option String
  | [], _ => none
  | (k, v) :: rest, key => if k = key then some v else lookupField rest key

/-- Final validation and assembly of `_normalize_line_item`: requires a
truthy cleaned description and at least one of unit price or amount. -/
def finishItem (rec : CandidateRecord) (dc q up am v : String) : Option LineItem :=
  if dc ≠ "" ∧ (up ≠ "" ∨ am ≠ "") then
    some { page := rec.page, tableNumber := rec.tableNumber, rowNumber := rec.rowNumber
           description := dc, quantity := strOpt q, unit_price := strOpt up
           amount := strOpt am, vat := strOpt v }
  else none

/-- The body of `_normalize_line_item` after the description-length gate:
token walk, quantity fallback, cross-field scan, amount dict fallback,
then validation. -/
def normalizeBody (rec : CandidateRecord) (description : String) : Option LineItem :=
  let tokens := pySplitWs description
  let walked := tokenWalkRev tokens.reverse "" "" ""
  let descriptionClean := pyStrip (joinSpace walked.1.reverse)
  let q0 := walked.2.1
  let quantity := if q0 == "" then findQuantity rec.fields else q0
  let scanned := scanFields rec.fields walked.2.2.1 "" walked.2.2.2
  let amount :=
    if scanned.2.1 == "" then
      match lookupField rec.fields "amount" with
      | some v => v
      | none => scanned.2.1
    else scanned.2.1
  finishItem rec descriptionClean quantity scanned.1 amount scanned.2.2

/-- `_normalize_line_item` (identical in both source variants): description
selection and length gate, then the extraction body. -/
def normalizeLineItem (rec : CandidateRecord) : Option LineItem :=
  if selectDescription rec.fields = "" ∨ (selectDescription rec.fields).length < 4 then none
  else normalizeBody rec (selectDescription rec.fields)

/-! ## Header Detector and table path: `_looks_like_headers`, `_extract_from_single_table` -/

/-- The header vocabulary of `_looks_like_headers`. -/
def headerIndicators : List String :=
  ["description", "desc", "item", "product", "service",
   "quantity", "qty", "quantit", "amount", "price", "rate",
   "unit", "total", "vat", "tax"]

/-- Cell truthiness plus non-blank content, as in
`cell and str(cell).strip()`. -/
def nonEmptyCell : Option String → Bool
  | none => false
  | some s => !(s == "") && !(pyStrip s == "")

/-- `_looks_like_headers`: at least 2 non-empty cells, of which at least 2
contain a header-vocabulary word. -/
def looksLikeHeaders (row : List (Option String)) : Bool :=
  let textCells := row.filterMap fun c =>
    match c with
    | none => none
    | some s => if s ≠ "" ∧ pyStrip s ≠ "" then some (pyLower (pyStrip s)) else none
  if textCells.length < 2 then false
  else 2 ≤ (textCells.filter fun cell =>
    headerIndicators.any fun ind => strContains cell ind).length

/-- Header labels from the detected header row: stripped and lower-cased,
with `column_<j>` (0-indexed) for falsy cells. -/
def headerNames (row : List (Option String)) : List String :=
  row.enum.map fun jc =>
    match jc.2 with
    | some s => if s ≠ "" then pyLower (pyStrip s) else "column_" ++ toString jc.1
    | none => "column_" ++ toString jc.1

/-- The header search over the first 5 rows (first qualifying row wins). -/
def findHeaderAux : List (List (Option String)) → Nat → Option (Nat × List String)
  | [], _ => none
  | r :: rest, i =>
    if looksLikeHeaders r then some (i, headerNames r) else findHeaderAux rest (i + 1)

/-- Header detection of `_extract_from_single_table`: scan `rows[:5]`. -/
def findHeader (rows : List (List (Option String))) : Option (Nat × List String) :=
  findHeaderAux (rows.take 5) 0

/-- Build the `line_item` dictionary for one data row: every truthy cell
whose column index has a header, keyed by that header, value stripped. -/
def rowToRecord (page tableNumber : Int) (rowNumber : Nat)
    (headers : List String) (row : List (Option String)) : CandidateRecord :=
  { page := some page, tableNumber := some tableNumber
    rowNumber := some (Int.ofNat rowNumber)
    fields := row.enum.filterMap fun jc =>
      match jc.2 with
      | some s =>
        if jc.1 < headers.length ∧ s ≠ "" then some (headers.getD jc.1 "", pyStrip s)
        else none
      | none => none }

/-- One data row through the per-table pipeline tail: the meaningful-field
gate, then the Noise Classifier, then (only then) the Field Extractor.
The boolean records whether `_normalize_line_item` was invoked. -/
def processRow (rec : CandidateRecord) : Option LineItem × Bool :=
  if 2 ≤ (rec.fields.filter fun kv => kv.2 ≠ "").length then
    if isTotalRow rec then (none, false)
    else (normalizeLineItem rec, true)
  else (none, false)

/-- `_extract_from_single_table`: header detection, then the data rows after
the header row (skipping blank rows), each through `processRow`. -/
def extractFromSingleTable (t : TableInfo) : List LineItem :=
  if t.data.length < 2 then []
  else
    match findHeader t.data with
    | none => []
    | some (hIdx, headers) =>
      (t.data.enum.filter fun p => hIdx + 1 ≤ p.1).filterMap fun p =>
        if p.2.any nonEmptyCell then
          (processRow (rowToRecord t.page t.tableNumber p.1 headers p.2)).1
        else none

/-! ## Text-Fallback Parser: `_parse_text_for_line_items`

The line pattern `(.{10,}?)\s+\$?([0-9,]+\.?\d{0,2})\s*$` is embedded as an
explicit search with the `re` engine's order: leftmost start position,
shortest (non-greedy) group 1, greedy tail with backtracking.
-/

/-- Digit or comma (the `[0-9,]` class). -/
def isDigitComma (c : Char) : Bool := c.isDigit || c == ','

/-- Match `\d{0,2}\s*$`, greedy, returning the consumed digits. -/
def matchG2b (cs : List Char) : Option (List Char) :=
  match cs with
  | a :: b :: rest =>
    if a.isDigit && b.isDigit && rest.all isWsChar then some [a, b]
    else if a.isDigit && (b :: rest).all isWsChar then some [a]
    else if (a :: b :: rest).all isWsChar then some []
    else none
  | [a] =>
    if a.isDigit then some [a]
    else if isWsChar a then some []
    else none
  | [] => some []

/-- Match `\.?\d{0,2}\s*$`, dot taken greedily first. -/
def matchDotG2b (cs : List Char) : Option (List Char) :=
  match cs with
  | '.' :: rest =>
    match matchG2b rest with
    | some g => some ('.' :: g)
    | none => matchG2b ('.' :: rest)
  | _ => matchG2b cs

/-- Backtracking over the length of the `[0-9,]+` run, longest first. -/
def tryAmountSplit (cs : List Char) : Nat → Option (List Char)
  | 0 => none
  | k + 1 =>
    match matchDotG2b (cs.drop (k + 1)) with
    | some g => some (cs.take (k + 1) ++ g)
    | none => tryAmountSplit cs k

/-- Match `([0-9,]+\.?\d{0,2})\s*$`, returning the amount group. -/
def matchAmountGroup (cs : List Char) : Option (List Char) :=
  tryAmountSplit cs (cs.takeWhile isDigitComma).length

/-- Backtracking over the length of the `\s+` run, longest first, then the
optional `$` sign, then the amount group. -/
def tryWsSplit (cs : List Char) : Nat → Option (List Char)
  | 0 => none
  | k + 1 =>
    let rest := cs.drop (k + 1)
    let afterDollar := dropOptChar (fun c => c == '$') rest
    match matchAmountGroup afterDollar with
    | some g => some g
    | none =>
      match (if rest ≠ afterDollar then matchAmountGroup rest else none) with
      | some g => some g
      | none => tryWsSplit cs k

/-- Match `\s+\$?([0-9,]+\.?\d{0,2})\s*$` against a whole suffix. -/
def matchTailFrom (cs : List Char) : Option (List Char) :=
  let w := (cs.takeWhile isWsChar).length
  if w == 0 then none else tryWsSplit cs w

/-- Non-greedy group 1: try lengths `l`, `l+1`, … (shortest first); `.`
does not match a newline. -/
def tryG1Aux (tail : List Char) (l : Nat) : Nat → Option (List Char × List Char)
  | 0 => none
  | f + 1 =>
    if (tail.take l).all (fun c => c ≠ '\n') then
      match matchTailFrom (tail.drop l) with
      | some g2 => some (tail.take l, g2)
      | none => tryG1Aux tail (l + 1) f
    else none

/-- `re.search` of the line pattern: leftmost starting position wins. -/
def searchAux : List Char → Option (List Char × List Char)
  | [] => none
  | c :: t =>
    match tryG1Aux (c :: t) 10 (c :: t).length with
    | some r => some r
    | none => searchAux t

/-- The `(description, amount)` groups of the first match of
`(.{10,}?)\s+\$?([0-9,]+\.?\d{0,2})\s*$`, if any. -/
def searchLinePattern (s : String) : Option (String × String) :=
  match searchAux s.toList with
  | some (g1, g2) => some (⟨g1⟩, ⟨g2⟩)
  | none => none

/-- The description skip vocabulary of `_parse_text_for_line_items`. -/
def skipIndicators : List String :=
  ["total", "subtotal", "tax", "discount", "grand", "due", "balance", "page"]

/-- A raw text-fallback match before normalization. -/
structure TextItem where
  description : String
  amount : String
  deriving Repr, DecidableEq

/-- `_parse_text_for_line_items`: per line, length gate, pattern search,
skip-vocabulary filter and description length gate. -/
def parseTextForLineItems (text : String) : List TextItem :=
  (pySplitNl text).filterMap fun line0 =>
    let line := pyStrip line0
    if line.length < 15 then none
    else
      match searchLinePattern line with
      | none => none
      | some (g1, g2) =>
        let description := pyStrip g1
        if skipIndicators.any (fun p => strContains (pyLower description) p) then none
        else if 5 < description.length then some ⟨description, g2⟩
        else none

/-! ## Line-Item Pipeline: `_extract_line_items_from_data` -/

/-- The candidate record handed to `_normalize_line_item` on the text path:
the dictionary `{description, amount, source}` with no provenance keys. -/
def textItemRecord (ti : TextItem) : CandidateRecord :=
  { page := none, tableNumber := none, rowNumber := none
    fields := [("description", ti.description), ("amount", ti.amount),
               ("source", "text_parsing")] }

/-- `_extract_line_items_from_data`: all tables through the table path; if
that yields nothing and text is non-empty, the text fallback (each raw
match normalized). -/
def extractLineItemsFromData (tables : List TableInfo) (text : String) :
    List LineItem :=
  if (tables.flatMap extractFromSingleTable).isEmpty ∧ text ≠ "" then
    (parseTextForLineItems text).filterMap fun ti =>
      normalizeLineItem (textItemRecord ti)
  else tables.flatMap extractFromSingleTable

/-! ## Numeric extraction helper: `_extract_number` (desktop variant)

Parsed numbers are modelled as rationals: every string the helper accepts
denotes a decimal numeral, embedded exactly in `ℚ`.
-/

/-- `re.sub(r'[^\d.,]', '', text)`: keep digits, commas and dots. -/
def extractNumberClean (s : String) : String :=
  ⟨s.toList.filter fun c => c.isDigit || c == ',' || c == '.'⟩

/-- The natural number denoted by a digit string. -/
def natOfDigits (cs : List Char) : ℕ :=
  cs.foldl (fun n c => 10 * n + (c.toNat - 48)) 0

/-- The rational denoted by `intpart.fracpart`. -/
def ratOfDecimal (cs : List Char) : ℚ :=
  let intPart := cs.takeWhile (fun c => c ≠ '.')
  let fracPart := (cs.dropWhile (fun c => c ≠ '.')).drop 1
  (natOfDigits intPart : ℚ) + (natOfDigits fracPart : ℚ) / ((10 : ℚ) ^ fracPart.length)

/-- Python `float(s)` restricted to strings over digits, dots and commas
(the only strings `_extract_number` can pass it): accepts at most one dot,
no commas, and at least one digit; everything else raises, modelled as
`none`. -/
def pyFloatDec (s : String) : Option ℚ :=
  let cs := s.toList
  if cs.all (fun c => c.isDigit || c == '.') ∧ (cs.filter (fun c => c == '.')).length ≤ 1
      ∧ cs.any Char.isDigit then
    some (ratOfDecimal cs)
  else none

/-- `_extract_number`: strip non-numeric characters, disambiguate comma as
thousands separator (both `,` and `.` present) or decimal separator
(single `,`), then parse, failing silently on malformed input. -/
def extractNumber (s : String) : Option ℚ :=
  if s = "" then none
  else
    let cleaned := extractNumberClean s
    let cleaned :=
      if cleaned.toList.contains ',' ∧ cleaned.toList.contains '.' then
        ⟨cleaned.toList.filter fun c => c ≠ ','⟩
      else if cleaned.toList.contains ','
          ∧ (cleaned.toList.filter fun c => c == ',').length = 1 then
        ⟨cleaned.toList.map fun c => if c = ',' then '.' else c⟩
      else cleaned
    pyFloatDec cleaned

/-! ## Report Exporter: `create_line_items_sheet` (rich variant)

Only the header construction and per-row value placement are embedded;
cell styling and column widths are presentation-only.
-/

/-- A per-file extraction result as the exporter sees it: `error` is the
optional `'error'` dict entry, `lineItems` is `none` when the
`'line_items'` key is absent (extraction raised before setting it). -/
structure FileResult where
  filename : String
  error : Option String
  lineItems : Option (List LineItem)
  deriving Repr, DecidableEq

/-- Dict lookup on a normalized line item, restricted to the non-provenance
keys it can contain.  `source` is never present: `_normalize_line_item`
does not copy it. -/
def itemGet (it : LineItem) : String → Option String
  | "description" => some it.description
  | "quantity" => it.quantity
  | "unit_price" => it.unit_price
  | "amount" => it.amount
  | "vat" => it.vat
  | _ => none

/-- The non-standard keys of a normalized item, in dict insertion order. -/
def itemColumnKeys (it : LineItem) : List String :=
  ["description"]
    ++ (if it.quantity.isSome then ["quantity"] else [])
    ++ (if it.unit_price.isSome then ["unit_price"] else [])
    ++ (if it.amount.isSome then ["amount"] else [])
    ++ (if it.vat.isSome then ["vat"] else [])

/-- The union `all_column_names` over all error-free results with items
(a Python set, modelled as a duplicate-free list; every later use is
order-insensitive). -/
def allColumnNames (results : List FileResult) : List String :=
  results.foldl
    (fun acc d =>
      match d.error, d.lineItems with
      | none, some items =>
        if items.isEmpty then acc
        else items.foldl
          (fun acc2 it => (itemColumnKeys it).foldl
            (fun a k => if a.contains k then a else a ++ [k]) acc2)
          acc
      | _, _ => acc)
    []

/-- The preferred column order of the Line Items sheet. -/
def preferredOrder : List String :=
  ["description", "quantity", "unit_price", "vat", "amount"]

/-- Python string `≤` (code-point lexicographic). -/
def charListLe : List Char → List Char → Bool
  | [], _ => true
  | _ :: _, [] => false
  | a :: as, b :: bs =>
    if a.toNat < b.toNat then true
    else if b.toNat < a.toNat then false
    else charListLe as bs

/-- Insertion into a sorted string list. -/
def insertSorted (x : String) : List String → List String
  | [] => [x]
  | y :: t => if charListLe x.toList y.toList then x :: y :: t else y :: insertSorted x t

/-- Python `sorted` on strings. -/
def sortStrings (l : List String) : List String := l.foldr insertSorted []

/-- Python `str.title()` on ASCII input: upper-case a letter not preceded by
a letter, lower-case the rest. -/
def pyTitleAux : List Char → Bool → List Char
  | [], _ => []
  | c :: t, prevAlpha =>
    (if c.isAlpha then (if prevAlpha then asciiLowerChar c else asciiUpperChar c) else c)
      :: pyTitleAux t c.isAlpha

/-- Header display form: `col.replace('_', ' ').title()`. -/
def fmtHeader (s : String) : String :=
  pyTitleAux (s.toList.map fun c => if c = '_' then ' ' else c) false |> String.mk

/-- The remaining (non-preferred) columns, sorted. -/
def remainingColumns (results : List FileResult) : List String :=
  sortStrings ((allColumnNames results).filter fun c => !preferredOrder.contains c)

/-- The Line Items sheet header row: Filename, the preferred columns that
occur, the remaining columns alphabetically, then Source. -/
def lineItemsHeaders (results : List FileResult) : List String :=
  let allCols := allColumnNames results
  ["Filename"]
    ++ (preferredOrder.filter fun c => allCols.contains c).map fmtHeader
    ++ (remainingColumns results).map fmtHeader
    ++ ["Source"]

/-- The cell values of one data row: filename, then for each preferred
column a value only when the item has that key, then every remaining
column with `''` default, then the source default. -/
def lineItemRowValues (filename : String) (remaining : List String)
    (it : LineItem) : List String :=
  [filename]
    ++ preferredOrder.filterMap (fun c => itemGet it c)
    ++ remaining.map (fun c => (itemGet it c).getD "")
    ++ [(itemGet it "source").getD "table_parsing"]

/-- All data rows of the Line Items sheet, in order. -/
def lineItemsSheetRows (results : List FileResult) : List (List String) :=
  let remaining := remainingColumns results
  results.flatMap fun d =>
    match d.error, d.lineItems with
    | none, some items =>
      if items.isEmpty then [] else items.map (lineItemRowValues d.filename remaining)
    | _, _ => []

/-! ## Per-file error containment: `extract_from_pdf`, Summary sheet, batch loop -/

/-- What the PDF-parsing collaborator hands back for one file: either the
page texts/tables, or the exception message raised while reading. -/
inductive AcqOutcome where
  | ok (text : String) (tables : List TableInfo)
  | failed (msg : String)
  deriving Repr, DecidableEq

/-- `extract_from_pdf`: the `try`/`except` around the acquisition and the
pipeline.  On an exception the error string is recorded and the
`line_items` key is never set; otherwise the pipeline runs. -/
def extractFromPdf (filename : String) (acq : AcqOutcome) : FileResult :=
  match acq with
  | .failed msg => { filename := filename, error := some msg, lineItems := none }
  | .ok text tables =>
    { filename := filename, error := none
      lineItems := some (extractLineItemsFromData tables text) }

/-- The batch loop of `main`: every file is processed, results appended in
order, with no early exit. -/
def processBatch (inputs : List (String × AcqOutcome)) : List FileResult :=
  inputs.map fun p => extractFromPdf p.1 p.2

/-- The Summary sheet status cell: `'Error' if 'error' in data else 'Success'`. -/
def summaryStatus (d : FileResult) : String :=
  if d.error.isSome then "Error" else "Success"

/-- The Summary sheet line-item count cell: `len(data.get('line_items', []))`. -/
def lineItemsFound (d : FileResult) : Nat :=
  (d.lineItems.getD []).length

/-! ## Spec-side comparator for the no-header fallback -/

/-- Following the spec's words, for comparison with
`extractFromSingleTable`: when the Header Detector finds no qualifying
header row, assign generic column names by position (`column_<n>`,
1-indexed) and treat row 0 as the first data row, processing every row
through the same downstream stages. -/
def specGenericHeaderExtract (t : TableInfo) : List LineItem :=
  if t.data.length < 2 then []
  else
    match findHeader t.data with
    | some (hIdx, headers) =>
      (t.data.enum.filter fun p => hIdx + 1 ≤ p.1).filterMap fun p =>
        if p.2.any nonEmptyCell then
          (processRow (rowToRecord t.page t.tableNumber p.1 headers p.2)).1
        else none
    | none =>
      let headers := (List.range (t.data.headD []).length).map
        fun j => "column_" ++ toString (j + 1)
      t.data.enum.filterMap fun p =>
        if p.2.any nonEmptyCell then
          (processRow (rowToRecord t.page t.tableNumber p.1 headers p.2)).1
        else none

/-! ## Concrete inputs used by the claim theorems -/

/-- Scenario A: a clean invoice table with an explicit header row. -/
def scenarioATable : TableInfo :=
  { page := 1, tableNumber := 1, data := [
      [some "Description", some "Quantity", some "Unit Price", some "Amount"],
      [some "Widget A", some "3", some "10.00", some "30.00"]] }

/-- A table whose data row's description shrinks to 2 characters once the
trailing price token is stripped. -/
def shortDescTable : TableInfo :=
  { page := 1, tableNumber := 1, data := [
      [some "Description", some "Quantity"],
      [some "ab 12.50", some "xxx"]] }

/-- A two-row table none of whose rows qualifies as a header row. -/
def headerlessTable : TableInfo :=
  { page := 2, tableNumber := 1, data := [
      [some "Premium consulting package 125.00", some "alpha notes"],
      [some "Standard consulting package 85.00", some "beta notes"]] }

/-- Scenario C: the text-fallback line. -/
def fallbackText : String :=
  "Consulting services rendered this month    $1,250.00"

/-- A complete line-item row whose description contains the word
`Internet`, hence the vocabulary token `NET` as a bare substring. -/
def internetRecord : CandidateRecord :=
  { page := some 1, tableNumber := some 1, rowNumber := some 2
    fields := [("description", "Internet hosting service"), ("quantity", "2"),
               ("unit price", "10.00"), ("amount", "20.00")] }

/-- A subtotal row. -/
def subtotalRecord : CandidateRecord :=
  { page := some 1, tableNumber := some 1, rowNumber := some 3
    fields := [("description", "Subtotal"), ("amount", "45.00")] }

/-- A record with full provenance whose normalization succeeds. -/
def provenanceRecord : CandidateRecord :=
  { page := some 3, tableNumber := some 2, rowNumber := some 7
    fields := [("description", "Premium hosting package"), ("amount", "99.00")] }

/-- An exported item carrying a `vat` field. -/
def exportItemVat : LineItem :=
  { page := some 1, tableNumber := some 1, rowNumber := some 1
    description := "Alpha consulting work", quantity := none, unit_price := none
    amount := some "100.00", vat := some "20%" }

/-- An exported item without a `vat` field. -/
def exportItemNoVat : LineItem :=
  { page := some 1, tableNumber := some 1, rowNumber := some 1
    description := "Beta consulting work", quantity := none, unit_price := none
    amount := some "200.00", vat := none }

/-- Two files whose line items use different optional field sets. -/
def exportResults : List FileResult :=
  [ { filename := "one.pdf", error := none, lineItems := some [exportItemVat] },
    { filename := "two.pdf", error := none, lineItems := some [exportItemNoVat] } ]

/-- A batch in which the second file's acquisition raises. -/
def batchInputs : List (String × AcqOutcome) :=
  [("good.pdf", AcqOutcome.ok "" []), ("bad.pdf", AcqOutcome.failed "damaged stream")]

/-! ## Helper lemmas -/

theorem strToList_append (a b : String) : (a ++ b).toList = a.toList ++ b.toList :=
  String.data_append a b

theorem listStartsWith_nil (n : List Char) (h : listStartsWith n [] = true) : n = [] := by
  cases n with
  | nil => rfl
  | cons a as => simp [listStartsWith] at h

theorem listStartsWith_append (n h b : List Char)
    (hp : listStartsWith n h = true) : listStartsWith n (h ++ b) = true := by
  induction n generalizing h with
  | nil => simp [listStartsWith]
  | cons a as ih =>
    cases h with
    | nil => simp [listStartsWith] at hp
    | cons c cs =>
      simp only [listStartsWith, Bool.and_eq_true] at hp ⊢
      exact ⟨hp.1, ih cs hp.2⟩

theorem listContainsSub_of_startsWith (n h : List Char)
    (hp : listStartsWith n h = true) : listContainsSub n h = true := by
  cases h with
  | nil => simpa [listContainsSub] using hp
  | cons c cs => simp [listContainsSub, hp]

theorem listContainsSub_append_left (n a b : List Char)
    (h : listContainsSub n a = true) : listContainsSub n (a ++ b) = true := by
  induction a with
  | nil =>
    have hn : n = [] := listStartsWith_nil n (by simpa [listContainsSub] using h)
    subst hn
    exact listContainsSub_of_startsWith [] b (by cases b <;> simp [listStartsWith])
  | cons c cs ih =>
    simp only [listContainsSub, Bool.or_eq_true] at h ⊢
    rcases h with h1 | h2
    · exact Or.inl (listStartsWith_append n (c :: cs) b h1)
    · exact Or.inr (ih h2)

theorem listContainsSub_append_right (n a b : List Char)
    (h : listContainsSub n b = true) : listContainsSub n (a ++ b) = true := by
  induction a with
  | nil => simpa using h
  | cons c cs ih =>
    simp only [listContainsSub, Bool.or_eq_true] at ih ⊢
    exact Or.inr ih

theorem joinSpace_contains (n : List Char) (v : String) (vs : List String)
    (hv : v ∈ vs) (h : listContainsSub n v.toList = true) :
    listContainsSub n (joinSpace vs).toList = true := by
  induction vs with
  | nil => cases hv
  | cons a rest ih =>
    rcases List.mem_cons.mp hv with rfl | hv2
    · cases rest with
      | nil => simpa [joinSpace] using h
      | cons b rs =>
        have e : joinSpace (v :: b :: rs) = v ++ " " ++ joinSpace (b :: rs) := rfl
        rw [e, strToList_append, strToList_append]
        exact listContainsSub_append_left _ _ _ (listContainsSub_append_left _ _ _ h)
    · cases rest with
      | nil => cases hv2
      | cons b rs =>
        have e : joinSpace (a :: b :: rs) = a ++ " " ++ joinSpace (b :: rs) := rfl
        rw [e, strToList_append]
        exact listContainsSub_append_right _ _ _ (ih hv2)

/-- A vocabulary word occurring inside a single text value occurs in the
joined `combined_text`, so rule 1 of the Noise Classifier fires. -/
theorem isTotalRow_of_value (rec : CandidateRecord) (v ind : String)
    (hv : v ∈ textValues rec) (hind : ind ∈ totalIndicators)
    (hsub : strContains v ind = true) : isTotalRow rec = true := by
  have hc : strContains (combinedText rec) ind = true :=
    joinSpace_contains ind.toList v (textValues rec) hv hsub
  have hany : (totalIndicators.any fun i => strContains (combinedText rec) i) = true :=
    List.any_eq_true.mpr ⟨ind, hind, hc⟩
  simp [isTotalRow, hany]

/-- A record the Noise Classifier rejects never reaches
`_normalize_line_item`: `processRow` yields no item and records that the
extractor was not invoked. -/
theorem processRow_eq_of_total (rec : CandidateRecord)
    (h : isTotalRow rec = true) : processRow rec = (none, false) := by
  unfold processRow
  split
  · simp [h]
  · rfl

theorem finishItem_some_inv (rec : CandidateRecord) (dc q up am v : String)
    (item : LineItem) (h : finishItem rec dc q up am v = some item) :
    item.description ≠ "" ∧ (item.unit_price ≠ none ∨ item.amount ≠ none) ∧
      item.page = rec.page ∧ item.tableNumber = rec.tableNumber ∧
      item.rowNumber = rec.rowNumber := by
  unfold finishItem at h
  split at h
  · rename_i hcond
    obtain ⟨hdc, hupam⟩ := hcond
    injection h with h
    subst h
    refine ⟨hdc, ?_, rfl, rfl, rfl⟩
    rcases hupam with hup | ham
    · exact Or.inl (by simp [strOpt, hup])
    · exact Or.inr (by simp [strOpt, ham])
  · cases h

theorem normalize_finish (rec : CandidateRecord) (item : LineItem)
    (h : normalizeLineItem rec = some item) :
    ∃ dc q up am v, finishItem rec dc q up am v = some item := by
  unfold normalizeLineItem at h
  split at h
  · cases h
  · exact ⟨_, _, _, _, _, h⟩

theorem processRow_fst_some (rec : CandidateRecord) (item : LineItem)
    (h : (processRow rec).1 = some item) : normalizeLineItem rec = some item := by
  unfold processRow at h
  split at h
  · split at h
    · simp at h
    · simpa using h
  · simp at h

theorem mem_extractFromSingleTable (t : TableInfo) (item : LineItem)
    (h : item ∈ extractFromSingleTable t) :
    ∃ rec, normalizeLineItem rec = some item := by
  unfold extractFromSingleTable at h
  split at h
  · cases h
  · split at h
    · cases h
    · rw [List.mem_filterMap] at h
      obtain ⟨p, _, hfp⟩ := h
      split at hfp
      · exact ⟨_, processRow_fst_some _ _ hfp⟩
      · cases hfp

theorem mem_extractLineItems (tables : List TableInfo) (text : String)
    (item : LineItem) (h : item ∈ extractLineItemsFromData tables text) :
    ∃ rec, normalizeLineItem rec = some item := by
  unfold extractLineItemsFromData at h
  split at h
  · rw [List.mem_filterMap] at h
    obtain ⟨ti, _, hfp⟩ := h
    exact ⟨_, hfp⟩
  · rw [List.mem_flatMap] at h
    obtain ⟨t, _, hmem⟩ := h
    exact mem_extractFromSingleTable t item hmem

/-! ## Claim theorems -/

/-- The item the table path emits from `shortDescTable`'s data row. -/
def shortDescItem : LineItem :=
  { page := some 1, tableNumber := some 1, rowNumber := some 1
    description := "ab", quantity := none, unit_price := some "12.50"
    amount := none, vat := none }

/-- C1 counterexample: the pipeline emits a LineItem whose cleaned
description is `"ab"`, of length 2, not greater than 3: the `>3` length
gate is applied before the trailing-token walk, which can shrink the
description below it. -/
theorem C1_short_description_emitted :
    extractLineItemsFromData [shortDescTable] "" = [shortDescItem] ∧
    ¬ 3 < shortDescItem.description.length := by
  exact ⟨by decide, by decide⟩

/-- C1 (amended): every LineItem emitted by the line-item pipeline (table
path or text fallback) has a non-empty cleaned description — the
greater-than-3 length bound holds only for the description before
trailing-token stripping — and at least one of unit_price or amount
present; records failing the validation are discarded entirely. -/
theorem C1_emitted_invariant (tables : List TableInfo) (text : String)
    (item : LineItem) (h : item ∈ extractLineItemsFromData tables text) :
    item.description ≠ "" ∧ (item.unit_price ≠ none ∨ item.amount ≠ none) := by
  obtain ⟨rec, hn⟩ := mem_extractLineItems tables text item h
  obtain ⟨dc, q, up, am, v, hf⟩ := normalize_finish rec item hn
  exact ⟨(finishItem_some_inv rec dc q up am v item hf).1,
         (finishItem_some_inv rec dc q up am v item hf).2.1⟩

/-- C1 witness: the invariant instantiated at a concrete emitted item. -/
theorem C1_emitted_invariant_witness :
    shortDescItem.description ≠ "" ∧
    (shortDescItem.unit_price ≠ none ∨ shortDescItem.amount ≠ none) :=
  C1_emitted_invariant [shortDescTable] "" shortDescItem (by decide)

/-- The item the text fallback emits for `fallbackText`. -/
def fallbackItem : LineItem :=
  { page := none, tableNumber := none, rowNumber := none
    description := "Consulting services rendered this month"
    quantity := none, unit_price := none, amount := some "1,250.00", vat := none }

/-- C2 counterexample: with no tables, the pipeline emits exactly one item
for `fallbackText`, but that item carries no `source` key at all —
`_normalize_line_item` does not copy `source` — so the exporter's
`source` lookup falls back to `table_parsing`, not `text_parsing`. -/
theorem C2_source_key_absent :
    extractLineItemsFromData [] fallbackText = [fallbackItem] ∧
    itemGet fallbackItem "source" = none ∧
    (itemGet fallbackItem "source").getD "table_parsing" ≠ "text_parsing" := by
  exact ⟨by decide, rfl, by decide⟩

/-- C2 (amended): for tables = [] and the text line
`"Consulting services rendered this month    $1,250.00"`, the pipeline
emits exactly one LineItem with the claimed description and amount, but
with no source field: the normalizer drops the `source` key the
text-fallback parser had set. -/
theorem C2_text_fallback_amended :
    extractLineItemsFromData [] fallbackText = [fallbackItem] ∧
    fallbackItem.description = "Consulting services rendered this month" ∧
    fallbackItem.amount = some "1,250.00" ∧
    itemGet fallbackItem "source" = none := by
  exact ⟨by decide, rfl, rfl, rfl⟩

/-- C3 counterexample: a two-row table in which the Header Detector finds
no qualifying header row; `_extract_from_single_table` yields nothing from
it, while processing it per the spec's generic-column fallback (row 0 as
first data row) would yield items. -/
theorem C3_headerless_table_yields_nothing :
    2 ≤ headerlessTable.data.length ∧
    findHeader headerlessTable.data = none ∧
    extractFromSingleTable headerlessTable = [] ∧
    specGenericHeaderExtract headerlessTable ≠ [] := by
  exact ⟨by decide, by decide, by decide, by decide⟩

/-- C3 (amended): when the Header Detector finds no qualifying header row
in the first 5 rows, `_extract_from_single_table` yields no line items
from that table; there is no generic-column fallback on this path. -/
theorem C3_no_header_no_items (t : TableInfo)
    (h : findHeader t.data = none) : extractFromSingleTable t = [] := by
  unfold extractFromSingleTable
  split
  · rfl
  · rw [h]

/-- C3 witness: the amended claim instantiated at the concrete table. -/
theorem C3_no_header_no_items_witness :
    findHeader headerlessTable.data = none ∧
    extractFromSingleTable headerlessTable = [] :=
  ⟨by decide, C3_no_header_no_items headerlessTable (by decide)⟩

/-- C4: evaluating `create_line_items_sheet` at two files whose items use
different optional field sets: the header row is the correct union
(`Filename, Description, Vat, Amount, Source`), but the row of the item
without `vat` has only 4 cells — its amount value `"200.00"` lands under
the `Vat` header instead of rendering an empty Vat cell, because the
preferred-column loop skips absent keys instead of emitting blanks. -/
theorem C4_heterogeneous_columns_misaligned :
    lineItemsHeaders exportResults =
      ["Filename", "Description", "Vat", "Amount", "Source"] ∧
    lineItemsSheetRows exportResults =
      [["one.pdf", "Alpha consulting work", "20%", "100.00", "table_parsing"],
       ["two.pdf", "Beta consulting work", "200.00", "table_parsing"]] ∧
    ((lineItemsSheetRows exportResults).getD 1 []).getD 2 "" = "200.00" ∧
    (lineItemsHeaders exportResults).getD 2 "" = "Vat" ∧
    ((lineItemsSheetRows exportResults).getD 1 []).length + 1 =
      (lineItemsHeaders exportResults).length := by
  exact ⟨by decide, by decide, by decide, by decide, by decide⟩

/-- C5: a file whose acquisition raises is contained: its result carries
the error string and no line items, counts zero line items and is flagged
Error in the Summary sheet, and every file of the batch is still
processed independently. -/
theorem C5_error_contained (inputs : List (String × AcqOutcome)) (i : Nat)
    (fn msg : String) (h : inputs.get? i = some (fn, AcqOutcome.failed msg)) :
    (processBatch inputs).length = inputs.length ∧
    (processBatch inputs).get? i =
      some { filename := fn, error := some msg, lineItems := none } ∧
    lineItemsFound { filename := fn, error := some msg, lineItems := none } = 0 ∧
    summaryStatus { filename := fn, error := some msg, lineItems := none } = "Error" ∧
    ∀ j, (processBatch inputs).get? j =
      (inputs.get? j).map fun p => extractFromPdf p.1 p.2 := by
  refine ⟨by simp [processBatch], ?_, rfl, rfl, fun j => List.get?_map _ _ _⟩
  show (List.map (fun p => extractFromPdf p.1 p.2) inputs).get? i = _
  rw [List.get?_map _ _ _, h]
  rfl

/-- C5 witness: the containment instantiated at a concrete two-file batch
whose second file fails. -/
theorem C5_error_contained_witness :
    (processBatch batchInputs).length = batchInputs.length ∧
    (processBatch batchInputs).get? 1 =
      some { filename := "bad.pdf", error := some "damaged stream", lineItems := none } ∧
    lineItemsFound { filename := "bad.pdf", error := some "damaged stream",
                     lineItems := none } = 0 ∧
    summaryStatus { filename := "bad.pdf", error := some "damaged stream",
                    lineItems := none } = "Error" ∧
    ∀ j, (processBatch batchInputs).get? j =
      (batchInputs.get? j).map fun p => extractFromPdf p.1 p.2 :=
  C5_error_contained batchInputs 1 "bad.pdf" "damaged stream" (by decide)

/-- C6: a CandidateRecord the Noise Classifier rejects never reaches the
Field Extractor — `processRow` short-circuits to no item with the
invocation flag false, so noise filtering strictly precedes extraction. -/
theorem C6_noise_precedes_extraction (rec : CandidateRecord)
    (h : isTotalRow rec = true) : processRow rec = (none, false) :=
  processRow_eq_of_total rec h

/-- C6 witness: a subtotal row is classified as noise and the extractor is
not invoked on it. -/
theorem C6_noise_precedes_extraction_witness :
    isTotalRow subtotalRecord = true ∧ processRow subtotalRecord = (none, false) :=
  ⟨by decide, C6_noise_precedes_extraction subtotalRecord (by decide)⟩

/-- C7: the numeric helper maps `"1,234.56"` to 1234.56 (comma dropped as
thousands separator when a dot is also present), maps `"12,34"` to 12.34
(a single comma becomes the decimal separator), and returns no value on
malformed input instead of raising. -/
theorem C7_extract_number_disambiguation :
    extractNumber "1,234.56" = some ((123456 : ℚ) / 100) ∧
    extractNumber "12,34" = some ((1234 : ℚ) / 100) ∧
    extractNumber "abc" = none := by
  refine ⟨?_, ?_, by decide⟩
  · have h : extractNumber "1,234.56" = some (ratOfDecimal "1234.56".toList) := rfl
    have h2 : ratOfDecimal "1234.56".toList =
        ((1234 : ℕ) : ℚ) + ((56 : ℕ) : ℚ) / (10 : ℚ) ^ (2 : ℕ) := rfl
    rw [h, h2]
    norm_num
  · have h : extractNumber "12,34" = some (ratOfDecimal "12.34".toList) := rfl
    have h2 : ratOfDecimal "12.34".toList =
        ((12 : ℕ) : ℚ) + ((34 : ℕ) : ℚ) / (10 : ℚ) ^ (2 : ℕ) := rfl
    rw [h, h2]
    norm_num

/-- The item Scenario A's table yields. -/
def scenarioAItem : LineItem :=
  { page := some 1, tableNumber := some 1, rowNumber := some 1
    description := "Widget A", quantity := some "3"
    unit_price := some "10.00", amount := some "30.00", vat := none }

/-- C8: the Header Detector accepts row 0 of Scenario A's table, and the
pipeline emits exactly one LineItem with description "Widget A",
quantity "3", unit_price "10.00" and amount "30.00". -/
theorem C8_header_scenario :
    findHeader scenarioATable.data =
      some (0, ["description", "quantity", "unit price", "amount"]) ∧
    extractFromSingleTable scenarioATable = [scenarioAItem] := by
  exact ⟨by decide, by decide⟩

/-- C9: whenever some non-provenance value of a record (uppercased, as in
`textValues`) contains a total-vocabulary word as a bare substring, the
Noise Classifier returns true and the row is discarded without invoking
the Field Extractor — even for records carrying a complete line item. -/
theorem C9_vocab_substring_noise (rec : CandidateRecord) (v ind : String)
    (hv : v ∈ textValues rec) (hind : ind ∈ totalIndicators)
    (hsub : strContains v ind = true) :
    isTotalRow rec = true ∧ processRow rec = (none, false) := by
  have ht := isTotalRow_of_value rec v ind hv hind hsub
  exact ⟨ht, processRow_eq_of_total rec ht⟩

/-- C9 witness: a complete row whose description "Internet hosting
service" contains `NET`, discarded despite full fields. -/
theorem C9_vocab_substring_noise_witness :
    "INTERNET HOSTING SERVICE" ∈ textValues internetRecord ∧
    "NET" ∈ totalIndicators ∧
    strContains "INTERNET HOSTING SERVICE" "NET" = true ∧
    isTotalRow internetRecord = true ∧
    processRow internetRecord = (none, false) := by
  refine ⟨by decide, by decide, by decide, ?_, ?_⟩
  · exact (C9_vocab_substring_noise internetRecord "INTERNET HOSTING SERVICE" "NET"
      (by decide) (by decide) (by decide)).1
  · exact (C9_vocab_substring_noise internetRecord "INTERNET HOSTING SERVICE" "NET"
      (by decide) (by decide) (by decide)).2

/-- C10: every item `_normalize_line_item` emits carries exactly the three
provenance fields, copied unchanged from the input record (`none` when
absent there); field extraction never modifies them. -/
theorem C10_provenance_preserved (rec : CandidateRecord) (item : LineItem)
    (h : normalizeLineItem rec = some item) :
    item.page = rec.page ∧ item.tableNumber = rec.tableNumber ∧
      item.rowNumber = rec.rowNumber := by
  obtain ⟨dc, q, up, am, v, hf⟩ := normalize_finish rec item h
  exact (finishItem_some_inv rec dc q up am v item hf).2.2

/-- The item `provenanceRecord` normalizes to. -/
def provenanceItem : LineItem :=
  { page := some 3, tableNumber := some 2, rowNumber := some 7
    description := "Premium hosting package", quantity := none
    unit_price := none, amount := some "99.00", vat := none }

/-- C10 witness: provenance preservation at a concrete record. -/
theorem C10_provenance_preserved_witness :
    normalizeLineItem provenanceRecord = some provenanceItem ∧
    (provenanceItem.page = provenanceRecord.page ∧
      provenanceItem.tableNumber = provenanceRecord.tableNumber ∧
      provenanceItem.rowNumber = provenanceRecord.rowNumber) :=
  ⟨by decide, C10_provenance_preserved provenanceRecord provenanceItem (by decide)⟩

end InvoiceConv
